import Mathlib

/-!
Shallow embedding of the luna-go SQL driver (wire-protocol client for the
Luna columnar engine) and proofs about its specification claims.

Bytes are modelled as Nat, byte streams as List Nat. Reader operations
(bufio.Reader.ReadByte / ReadString / io.ReadFull) are modelled as pure
functions that consume leading bytes of the stream and return the rest.
Go (value, error) returns become Except; a Go runtime panic is a
distinguished error constructor where it can occur.
-/

namespace Luna

/-- Error outcomes of a read: an io error (unexpected end of stream,
possibly wrapped with context by the caller), a protocol error produced
via fmt.Errorf, or a Go runtime panic. -/
inductive RespError where
  | ioEOF
  | protocol (msg : String)
  | panicked (msg : String)
deriving DecidableEq

/-- Whitespace test used by strings.TrimSpace, restricted to the ASCII
range (the Go function also trims a few Latin-1 code points that cannot
occur in the ASCII control lines of this protocol). -/
def isSpaceByte (b : Nat) : Bool :=
  b == 32 || b == 9 || b == 10 || b == 11 || b == 12 || b == 13

/-- Model of strings.TrimSpace over bytes: drop whitespace from both ends. -/
def trimSpace (s : List Nat) : List Nat :=
  ((s.dropWhile isSpaceByte).reverse.dropWhile isSpaceByte).reverse

/-- Model of Go string(bytes) for byte lists in the ASCII range. -/
def bytesToString (s : List Nat) : String :=
  String.mk (s.map Char.ofNat)

/-- Byte list of a Go string literal (ASCII). -/
def strBytes (s : String) : List Nat :=
  s.data.map Char.toNat

def isDigitByte (b : Nat) : Bool :=
  48 ≤ b && b ≤ 57

def digitsToNat (ds : List Nat) : Nat :=
  ds.foldl (fun acc d => acc * 10 + (d - 48)) 0

/-- Parse a nonempty run of decimal digits. -/
def parseDigits (s : List Nat) : Option Nat :=
  if s ≠ [] ∧ s.all isDigitByte then some (digitsToNat s) else none

/-- Model of strconv.Atoi: optional sign followed by decimal digits
(the int-range overflow check is not modelled; the protocol lengths in
the claims are far below it). -/
def atoi (s : List Nat) : Option Int :=
  match s with
  | 43 :: rest => (parseDigits rest).map (fun n => (n : Int))
  | 45 :: rest => (parseDigits rest).map (fun n => -(n : Int))
  | _ => (parseDigits s).map (fun n => (n : Int))

/-- Model of io.ReadFull n: read exactly n bytes or fail with an io
error once the stream ends early. -/
def readFull : Nat → List Nat → Except RespError (List Nat × List Nat)
  | 0, s => Except.ok ([], s)
  | _ + 1, [] => Except.error RespError.ioEOF
  | n + 1, b :: s =>
    match readFull n s with
    | Except.error e => Except.error e
    | Except.ok (data, rem) => Except.ok (b :: data, rem)

/-- Model of bufio.Reader.ReadString with delimiter 10: return the bytes
up to and including the newline; if the stream ends first, the data
read so far is discarded and the io error is returned (the Go callers
all propagate the error in that case). -/
def readLine : List Nat → Except RespError (List Nat × List Nat)
  | [] => Except.error RespError.ioEOF
  | b :: rest =>
    if b = 10 then Except.ok ([10], rest)
    else
      match readLine rest with
      | Except.error e => Except.error e
      | Except.ok (line, rem) => Except.ok (b :: line, rem)

/-- readResponse from protocol.go: read one tag byte and dispatch.
Returns the Go (respType, data) pair plus the unread remainder of the
stream. Tag strings are exactly the ones the Go code returns. -/
def readResponse (input : List Nat) : Except RespError (String × List Nat × List Nat) :=
  match input with
  | [] => Except.error RespError.ioEOF
  | firstByte :: rest =>
    if firstByte = 255 then
      -- Arrow IPC continuation marker: read the remaining 3 marker bytes
      match readFull 3 rest with
      | Except.error _ => Except.error RespError.ioEOF
      | Except.ok (marker, rem) =>
        if marker.getD 0 0 ≠ 255 ∨ marker.getD 1 0 ≠ 255 ∨ marker.getD 2 0 ≠ 255 then
          Except.error (RespError.protocol "invalid continuation marker")
        else
          Except.ok ("arrow-stream", [255, 255, 255, 255], rem)
    else if firstByte = 36 then
      -- RESP bulk string: length line, then payload, then trailing CRLF
      match readLine rest with
      | Except.error e => Except.error e
      | Except.ok (line, rem) =>
        match atoi (trimSpace line) with
        | none =>
          Except.error (RespError.protocol ("invalid length: " ++ bytesToString (trimSpace line)))
        | some len =>
          if len = -1 then Except.ok ("null", [], rem)
          else if len < 0 then Except.error (RespError.panicked "makeslice: len out of range")
          else
            match readFull len.toNat rem with
            | Except.error e => Except.error e
            | Except.ok (data, rem2) =>
              -- the two trailing ReadByte calls ignore their errors
              Except.ok ("bulk", data, rem2.drop 2)
    else if firstByte = 43 then
      match readLine rest with
      | Except.error e => Except.error e
      | Except.ok (line, rem) => Except.ok ("ok", trimSpace line, rem)
    else if firstByte = 45 then
      match readLine rest with
      | Except.error e => Except.error e
      | Except.ok (line, rem) => Except.ok ("error", trimSpace line, rem)
    else if firstByte = 58 then
      match readLine rest with
      | Except.error e => Except.error e
      | Except.ok (line, rem) => Except.ok ("int", trimSpace line, rem)
    else
      Except.error (RespError.protocol
        ("unknown response type: " ++ String.singleton (Char.ofNat firstByte)))

/-- Decimal digit bytes of a natural number, as written by fmt %d. -/
def natDigits (n : Nat) : List Nat :=
  (Nat.toDigits 10 n).map Char.toNat

/-- Protocol constant cmdQuery, the bytes of the string with chars q and colon. -/
def cmdQuery : List Nat := [113, 58]

/-- Protocol constant cmdExecute, the bytes of the string with chars x and colon. -/
def cmdExecute : List Nat := [120, 58]

/-- sendCommand from protocol.go: the bytes written to the socket,
following fmt.Sprintf with the dollar, length, CRLF, payload, CRLF shape. -/
def sendCommand (cmd sql : List Nat) : List Nat :=
  let message := cmd ++ sql
  36 :: natDigits message.length ++ [13, 10] ++ message ++ [13, 10]

/-! Arrow value model for rows.go. A column is one of the concrete Arrow
array kinds the type switch in getValueFromColumn handles, plus a
constructor for any other declared type. Each array carries its null
bitmap and its decoded cell payloads. Float cells carry their raw IEEE
bit pattern as a Nat: getValueFromColumn only passes float values
through, it never computes with them. -/

inductive TimeUnit where
  | second
  | millisecond
  | microsecond
  | nanosecond
deriving DecidableEq

/-- Nanoseconds per unit, as used by arrow Timestamp.ToTime. -/
def TimeUnit.nanos : TimeUnit → Int
  | .second => 1000000000
  | .millisecond => 1000000
  | .microsecond => 1000
  | .nanosecond => 1

/-- driver.Value: the dynamic value placed into a destination slot.
Value.nil is the Go nil interface value. Value.time is a Go time.Time
instant, as nanoseconds since the Unix epoch. -/
inductive Value where
  | nil
  | bool (b : Bool)
  | int8 (n : Int)
  | int16 (n : Int)
  | int32 (n : Int)
  | int64 (n : Int)
  | uint8 (n : Nat)
  | uint16 (n : Nat)
  | uint32 (n : Nat)
  | uint64 (n : Nat)
  | float32 (bits : Nat)
  | float64 (bits : Nat)
  | str (s : String)
  | bytes (bs : List Nat)
  | time (ns : Int)
deriving DecidableEq

inductive ArrowArray where
  | boolean (nulls : List Bool) (vals : List Bool)
  | int8 (nulls : List Bool) (vals : List Int)
  | int16 (nulls : List Bool) (vals : List Int)
  | int32 (nulls : List Bool) (vals : List Int)
  | int64 (nulls : List Bool) (vals : List Int)
  | uint8 (nulls : List Bool) (vals : List Nat)
  | uint16 (nulls : List Bool) (vals : List Nat)
  | uint32 (nulls : List Bool) (vals : List Nat)
  | uint64 (nulls : List Bool) (vals : List Nat)
  | float32 (nulls : List Bool) (vals : List Nat)
  | float64 (nulls : List Bool) (vals : List Nat)
  | string (nulls : List Bool) (vals : List String)
  | binary (nulls : List Bool) (vals : List (List Nat))
  | date32 (nulls : List Bool) (vals : List Int)
  | date64 (nulls : List Bool) (vals : List Int)
  | timestamp (unit : TimeUnit) (nulls : List Bool) (vals : List Int)
  | decimal128 (scale : Int) (nulls : List Bool) (vals : List Int)
  | decimal256 (scale : Int) (nulls : List Bool) (vals : List Int)
  | unsupported (typeName : String) (nulls : List Bool)
deriving DecidableEq

/-- The null bitmap of an array. -/
def ArrowArray.nullsOf : ArrowArray → List Bool
  | .boolean nulls _ => nulls
  | .int8 nulls _ => nulls
  | .int16 nulls _ => nulls
  | .int32 nulls _ => nulls
  | .int64 nulls _ => nulls
  | .uint8 nulls _ => nulls
  | .uint16 nulls _ => nulls
  | .uint32 nulls _ => nulls
  | .uint64 nulls _ => nulls
  | .float32 nulls _ => nulls
  | .float64 nulls _ => nulls
  | .string nulls _ => nulls
  | .binary nulls _ => nulls
  | .date32 nulls _ => nulls
  | .date64 nulls _ => nulls
  | .timestamp _ nulls _ => nulls
  | .decimal128 _ nulls _ => nulls
  | .decimal256 _ nulls _ => nulls
  | .unsupported _ nulls => nulls

/-- col.IsNull(i). -/
def ArrowArray.isNull (col : ArrowArray) (rowIdx : Nat) : Bool :=
  col.nullsOf.getD rowIdx false

/-- arrow Date32.ToTime: whole days since epoch, as an instant. -/
def date32ToTime (d : Int) : Int := d * 86400 * 1000000000

/-- arrow Date64.ToTime: milliseconds since epoch, as an instant. -/
def date64ToTime (ms : Int) : Int := ms * 1000000

/-- Left-pad a digit string with zeros to the given width. -/
def padZeros (s : String) (n : Nat) : String :=
  String.mk (List.replicate (n - s.length) '0') ++ s

/-- Model of arrow Decimal128.ToString / Decimal256.ToString with a
declared scale: render value times ten to the minus scale with exactly
scale fractional digits. -/
def decimalToString (v : Int) (scale : Int) : String :=
  if scale ≤ 0 then toString (v * (10 : Int) ^ (-scale).toNat)
  else
    let n := scale.toNat
    let a := v.natAbs
    let p := (10 : Nat) ^ n
    (if v < 0 then "-" else "") ++ toString (a / p) ++ "." ++ padZeros (toString (a % p)) n

/-- getValueFromColumn from rows.go: nil for a null cell, the typed cell
value for a supported array kind, an error for any other kind. In-range
element access arr.Value(i) is modelled with a type-appropriate default
for out-of-range indices (the Go code only ever calls it in range). -/
def getValueFromColumn (col : ArrowArray) (rowIdx : Nat) : Except String Value :=
  if col.isNull rowIdx then Except.ok Value.nil
  else
    match col with
    | .boolean _ vals => Except.ok (Value.bool (vals.getD rowIdx false))
    | .int8 _ vals => Except.ok (Value.int8 (vals.getD rowIdx 0))
    | .int16 _ vals => Except.ok (Value.int16 (vals.getD rowIdx 0))
    | .int32 _ vals => Except.ok (Value.int32 (vals.getD rowIdx 0))
    | .int64 _ vals => Except.ok (Value.int64 (vals.getD rowIdx 0))
    | .uint8 _ vals => Except.ok (Value.uint8 (vals.getD rowIdx 0))
    | .uint16 _ vals => Except.ok (Value.uint16 (vals.getD rowIdx 0))
    | .uint32 _ vals => Except.ok (Value.uint32 (vals.getD rowIdx 0))
    | .uint64 _ vals => Except.ok (Value.uint64 (vals.getD rowIdx 0))
    | .float32 _ vals => Except.ok (Value.float32 (vals.getD rowIdx 0))
    | .float64 _ vals => Except.ok (Value.float64 (vals.getD rowIdx 0))
    | .string _ vals => Except.ok (Value.str (vals.getD rowIdx ""))
    | .binary _ vals => Except.ok (Value.bytes (vals.getD rowIdx []))
    | .date32 _ vals => Except.ok (Value.time (date32ToTime (vals.getD rowIdx 0)))
    | .date64 _ vals => Except.ok (Value.time (date64ToTime (vals.getD rowIdx 0)))
    | .timestamp unit _ vals =>
      Except.ok (Value.time (vals.getD rowIdx 0 * unit.nanos))
    | .decimal128 scale _ vals =>
      Except.ok (Value.str (decimalToString (vals.getD rowIdx 0) scale))
    | .decimal256 scale _ vals =>
      Except.ok (Value.str (decimalToString (vals.getD rowIdx 0) scale))
    | .unsupported typeName _ =>
      Except.error ("unsupported Arrow type: " ++ typeName)

/-- arrow.Record: the field names of its schema, its declared row count,
and its columns. -/
structure ArrowRecord where
  schemaFields : List String
  numRows : Nat
  cols : List ArrowArray
deriving DecidableEq

/-- The dest-filling loop body of Rows.Next: extract every column of one
row in column order, stopping at the first extraction error. -/
def extractRow (rec : ArrowRecord) (rowIdx : Nat) : Except String (List Value) :=
  rec.cols.mapM (fun col => getValueFromColumn col rowIdx)

/-- Whether an extraction succeeded. -/
def exOk : Except String (List Value) → Bool
  | Except.ok _ => true
  | Except.error _ => false

/-! Result cursor (Rows) from rows.go. -/

structure Rows where
  records : List ArrowRecord
  recordIdx : Nat
  rowIdx : Nat
  columns : List String
  closed : Bool
deriving DecidableEq

/-- newRowsFromArrow: fresh cursor over the decoded records, with column
names taken from the schema of the first record when one exists. -/
def newRowsFromArrow (records : List ArrowRecord) : Rows :=
  { records := records
    recordIdx := 0
    rowIdx := 0
    columns := match records with
      | [] => []
      | rec :: _ => rec.schemaFields
    closed := false }

/-- Outcome of one Rows.Next call: a filled destination row (nil error),
io.EOF, or a non-EOF error. -/
inductive NextOut where
  | row (vals : List Value)
  | eof
  | fail (msg : String)
deriving DecidableEq

/-- The record-advancing loop of Rows.Next, phrased over the suffix of
records from recordIdx onward (the Go loop tests recordIdx against the
slice length and indexes the slice; callers pass exactly that suffix). -/
def nextLoopAux : List ArrowRecord → Rows → NextOut × Rows
  | [], r => (NextOut.eof, r)
  | record :: rest, r =>
    if r.rowIdx < record.numRows then
      match extractRow record r.rowIdx with
      | Except.error e => (NextOut.fail e, r)
      | Except.ok vals => (NextOut.row vals, { r with rowIdx := r.rowIdx + 1 })
    else
      nextLoopAux rest { r with recordIdx := r.recordIdx + 1, rowIdx := 0 }

/-- Rows.Next. -/
def Rows.Next (r : Rows) : NextOut × Rows :=
  if r.closed then (NextOut.eof, r)
  else nextLoopAux (r.records.drop r.recordIdx) r

/-- Rows.Close: returns the Go error, the list of records released by
this call (each gets exactly one Release), and the new state. -/
def Rows.Close (r : Rows) : Option String × List ArrowRecord × Rows :=
  if r.closed then (none, [], r)
  else (none, r.records, { r with closed := true, records := [] })

/-- Call Next n times from a state, collecting the outcomes. -/
def collectOuts (r : Rows) : Nat → List NextOut × Rows
  | 0 => ([], r)
  | Nat.succ n =>
    let p := r.Next
    let q := collectOuts p.2 n
    (p.1 :: q.1, q.2)

/-- The Next outcome produced for row j of a record. -/
def outOf (rec : ArrowRecord) (j : Nat) : NextOut :=
  match extractRow rec j with
  | Except.ok vs => NextOut.row vs
  | Except.error e => NextOut.fail e

/-- Outcomes still to be produced from row j of one record. -/
def recOuts (rec : ArrowRecord) (j : Nat) : List NextOut :=
  (List.range' j (rec.numRows - j)).map (outOf rec)

/-- All row outcomes of a record list, in record order then row order. -/
def allOuts : List ArrowRecord → List NextOut
  | [] => []
  | rec :: rest => recOuts rec 0 ++ allOuts rest

/-- Outcomes still to be produced from a record suffix whose first
record is entered at row j. -/
def remOuts : List ArrowRecord → Nat → List NextOut
  | [], _ => []
  | rec :: rest, j => recOuts rec j ++ allOuts rest

/-- Total declared row count of a record list. -/
def totalRows (records : List ArrowRecord) : Nat :=
  (records.map (fun rec => rec.numRows)).sum

/-! Connection, exec and transaction model from conn.go, result.go and
the transaction file. The Arrow IPC library reader is a parameter: a
function that consumes a byte stream beginning at the continuation
marker and returns the decoded records plus the unread remainder. -/

/-- The state of a Conn that the claims depend on: the closed flag and
the open-transaction flag. The socket and the buffered reader are
modelled by the stream arguments of the operations. -/
structure Conn where
  closed : Bool
  tx : Bool
deriving DecidableEq

/-- result from result.go. -/
structure result where
  rowsAffected : Int
deriving DecidableEq

/-- result.RowsAffected: returns the stored count and a nil error. -/
def resultRowsAffected (r : result) : Int × Option String :=
  (r.rowsAffected, none)

/-- The Arrow IPC stream reader (ipc.NewReader plus the record loop),
taken as a parameter of the operations that invoke it. -/
def ArrowDecoder : Type :=
  List Nat → Except String (List ArrowRecord × List Nat)

/-- parseArrowIPCFromReader from protocol.go: re-prepend the 4 consumed
continuation-marker bytes (the io.MultiReader) and hand the combined
stream to the Arrow IPC reader. -/
def parseArrowIPCFromReader (decode : ArrowDecoder) (rest : List Nat) :
    Except String (List ArrowRecord × List Nat) :=
  decode (255 :: 255 :: 255 :: 255 :: rest)

/-- Conn.ExecContext from conn.go: fail fast on a closed conn, send the
execute command (the write side does not consume the read stream), read
the response, surface server errors, drain and discard an Arrow stream,
and return a result with zero rows affected. Error strings stand for
the wrapped Go error values. -/
def Conn.ExecContext (decode : ArrowDecoder) (c : Conn) (stream _query : List Nat) :
    Except String (result × List Nat) :=
  if c.closed then Except.error "driver: bad connection"
  else
    match readResponse stream with
    | Except.error _ => Except.error "failed to read response"
    | Except.ok (respType, data, rem) =>
      if respType = "error" then Except.error ("luna error: " ++ bytesToString data)
      else if respType = "arrow-stream" then
        match parseArrowIPCFromReader decode rem with
        | Except.error _ => Except.error "failed to parse Arrow IPC"
        | Except.ok (_, rem2) => Except.ok ({ rowsAffected := 0 }, rem2)
      else Except.ok ({ rowsAffected := 0 }, rem)

/-- Conn.Close from conn.go: an already closed conn is an error; else
mark closed and close the socket. -/
def Conn.Close (c : Conn) : Option String × Conn :=
  if c.closed then (some "luna: connection already closed", c)
  else (none, { c with closed := true })

/-- Outcome of a Go call that returns (value, error) but can also
panic: a normal return with a value, a normal return with an error, or
a runtime panic unwinding the stack. -/
inductive GoCall (α : Type) where
  | ok (val : α)
  | err (msg : String)
  | panicked (msg : String)

/-- Conn.BeginTx from conn.go: refuse a second transaction, send BEGIN
TRANSACTION, then set the flag and hand out a tx bound to the conn. -/
def Conn.BeginTx (decode : ArrowDecoder) (c : Conn) (stream : List Nat) :
    GoCall (Conn × List Nat) :=
  if c.tx then GoCall.err "luna: there is already an open transaction"
  else
    match Conn.ExecContext decode c stream (strBytes "BEGIN TRANSACTION") with
    | Except.error e => GoCall.err e
    | Except.ok (_, rem) => GoCall.ok ({ c with tx := true }, rem)

/-- tx from the transaction file: it holds a pointer to its conn, which
is set to nil after Commit or Rollback. -/
structure tx where
  c : Option Conn

def commitPanicMsg : String :=
  "database/sql/driver: misuse of duckdb driver: extra Commit"

def rollbackPanicMsg : String :=
  "database/sql/driver: misuse of duckdb driver: extra Rollback"

/-- tx.Commit: panics when the conn pointer is nil or no transaction is
flagged open; otherwise clears the flag, sends COMMIT TRANSACTION and
nils the pointer. On success it returns the remaining stream. -/
def tx.Commit (decode : ArrowDecoder) (t : tx) (stream : List Nat) :
    GoCall (tx × List Nat) :=
  match t.c with
  | none => GoCall.panicked commitPanicMsg
  | some c =>
    if c.tx = false then GoCall.panicked commitPanicMsg
    else
      match Conn.ExecContext decode { c with tx := false } stream
          (strBytes "COMMIT TRANSACTION") with
      | Except.error e => GoCall.err e
      | Except.ok (_, rem) => GoCall.ok ({ c := none }, rem)

/-- tx.Rollback: same guard as Commit, sending ROLLBACK. -/
def tx.Rollback (decode : ArrowDecoder) (t : tx) (stream : List Nat) :
    GoCall (tx × List Nat) :=
  match t.c with
  | none => GoCall.panicked rollbackPanicMsg
  | some c =>
    if c.tx = false then GoCall.panicked rollbackPanicMsg
    else
      match Conn.ExecContext decode { c with tx := false } stream
          (strBytes "ROLLBACK") with
      | Except.error e => GoCall.err e
      | Except.ok (_, rem) => GoCall.ok ({ c := none }, rem)

/-! Concrete fixtures used by witnesses. -/

/-- A degenerate Arrow decoder for witnesses: consumes the 4 marker
bytes and returns no records. -/
def sampleDecode : ArrowDecoder :=
  fun s => Except.ok ([], s.drop 4)

/-- A two-record fixture: two rows then one row, one column each. -/
def sampleRecords : List ArrowRecord :=
  [ { schemaFields := ["a"], numRows := 2
      cols := [ArrowArray.int64 [false, false] [7, 8]] }
  , { schemaFields := ["a"], numRows := 1
      cols := [ArrowArray.int64 [true] [0]] } ]

/-! Helper lemmas about the cursor iteration. -/

/-- An open cursor at an explicit position, used to state the iteration
lemmas. -/
def mkRows (all : List ArrowRecord) (i j : Nat) (cols : List String) : Rows :=
  { records := all, recordIdx := i, rowIdx := j, columns := cols, closed := false }

theorem next_drop_nil (r : Rows) (hc : r.closed = false)
    (hd : r.records.drop r.recordIdx = []) : Rows.Next r = (NextOut.eof, r) := by
  simp [Rows.Next, hc, hd, nextLoopAux]

theorem collect_eof (r : Rows) (h : Rows.Next r = (NextOut.eof, r)) :
    ∀ k, (collectOuts r k).1 = List.replicate k NextOut.eof := by
  intro k
  induction k with
  | zero => rfl
  | succ n ih => simp [collectOuts, h, ih, List.replicate_succ]

theorem collect_drop_nil (all : List ArrowRecord) (i j : Nat) (cols : List String) (k : Nat)
    (hdrop : all.drop i = []) :
    (collectOuts (mkRows all i j cols) k).1 = List.replicate k NextOut.eof :=
  collect_eof _ (next_drop_nil _ rfl hdrop) k

theorem collect_congr (r s : Rows) (h : Rows.Next r = Rows.Next s) :
    ∀ N, (collectOuts r N).1 = (collectOuts s N).1 := by
  intro N
  cases N with
  | zero => rfl
  | succ n => simp [collectOuts, h]

theorem remOuts_zero : ∀ l : List ArrowRecord, remOuts l 0 = allOuts l := by
  intro l; cases l <;> rfl

theorem recOuts_zero (rec : ArrowRecord) :
    recOuts rec 0 = (List.range rec.numRows).map (outOf rec) := by
  simp [recOuts, List.range_eq_range']

theorem allOuts_length : ∀ l : List ArrowRecord, (allOuts l).length = totalRows l := by
  intro l
  induction l with
  | nil => rfl
  | cons rec rest ih =>
    simp only [totalRows, List.map_cons, List.sum_cons] at ih ⊢
    simp [allOuts, recOuts, ih]

theorem allOuts_rows : ∀ l : List ArrowRecord,
    (∀ rec ∈ l, ∀ m, m < rec.numRows → exOk (extractRow rec m) = true) →
    ∀ o ∈ allOuts l, ∃ vs, o = NextOut.row vs := by
  intro l
  induction l with
  | nil => intro _ o ho; simp [allOuts] at ho
  | cons rec rest ih =>
    intro hok o ho
    rw [show allOuts (rec :: rest) = recOuts rec 0 ++ allOuts rest from rfl,
      List.mem_append] at ho
    cases ho with
    | inl h1 =>
      rw [recOuts_zero] at h1
      obtain ⟨m, hm, rfl⟩ := List.mem_map.mp h1
      have hmlt : m < rec.numRows := List.mem_range.mp hm
      have hx := hok rec (by simp) m hmlt
      cases hext : extractRow rec m with
      | ok vs => exact ⟨vs, by simp [outOf, hext]⟩
      | error e => rw [hext] at hx; simp [exOk] at hx
    | inr h2 =>
      exact ih (fun r2 hr2 m hm => hok r2 (by simp [hr2]) m hm) o h2

/-- Main iteration lemma: from any cursor position whose record suffix
satisfies the extraction hypothesis, running Next for the number of
remaining rows plus k more calls yields exactly those rows in order
followed by k end-of-data signals. -/
theorem collect_spec (M : Nat) :
    ∀ (suffix all : List ArrowRecord) (i j : Nat) (cols : List String) (k : Nat),
      (remOuts suffix j).length + suffix.length ≤ M →
      all.drop i = suffix →
      (∀ rec ∈ suffix, ∀ m, m < rec.numRows → exOk (extractRow rec m) = true) →
      (collectOuts (mkRows all i j cols) ((remOuts suffix j).length + k)).1
        = remOuts suffix j ++ List.replicate k NextOut.eof := by
  induction M with
  | zero =>
    intro suffix all i j cols k hM hdrop _
    have hs : suffix = [] := by
      cases suffix with
      | nil => rfl
      | cons a b =>
        exfalso
        simp only [List.length_cons] at hM
        omega
    subst hs
    simpa [remOuts] using collect_drop_nil all i j cols k hdrop
  | succ M ih =>
    intro suffix all i j cols k hM hdrop hok
    cases suffix with
    | nil => simpa [remOuts] using collect_drop_nil all i j cols k hdrop
    | cons rec rest =>
      by_cases hj : j < rec.numRows
      · have hx : exOk (extractRow rec j) = true := hok rec (by simp) j hj
        obtain ⟨vs, hvs⟩ : ∃ vs, extractRow rec j = Except.ok vs := by
          cases hext : extractRow rec j with
          | ok vs => exact ⟨vs, rfl⟩
          | error e => rw [hext] at hx; simp [exOk] at hx
        have hnext : Rows.Next (mkRows all i j cols)
            = (NextOut.row vs, mkRows all i (j + 1) cols) := by
          simp [mkRows, Rows.Next, hdrop, nextLoopAux, hj, hvs]
        have hdec : remOuts (rec :: rest) j
            = NextOut.row vs :: remOuts (rec :: rest) (j + 1) := by
          have h1 : rec.numRows - j = (rec.numRows - (j + 1)) + 1 := by omega
          simp [remOuts, recOuts, h1, List.range'_succ, outOf, hvs]
        have hM2 : (remOuts (rec :: rest) (j + 1)).length + (rec :: rest).length ≤ M := by
          rw [hdec] at hM
          simp only [List.length_cons] at hM ⊢
          omega
        have hrec := ih (rec :: rest) all i (j + 1) cols k hM2 hdrop hok
        rw [hdec]
        have hcount : (NextOut.row vs :: remOuts (rec :: rest) (j + 1)).length + k
            = ((remOuts (rec :: rest) (j + 1)).length + k) + 1 := by
          simp only [List.length_cons]
          omega
        rw [hcount]
        simp only [collectOuts, hnext]
        simpa using hrec
      · have hrec0 : recOuts rec j = [] := by
          have h0 : rec.numRows - j = 0 := by omega
          simp [recOuts, h0]
        have hdec : remOuts (rec :: rest) j = remOuts rest 0 := by
          rw [show remOuts (rec :: rest) j = recOuts rec j ++ allOuts rest from rfl,
            hrec0, remOuts_zero]
          rfl
        have hdrop2 : all.drop (i + 1) = rest := by
          have h2 : (all.drop i).drop 1 = all.drop (i + 1) := List.drop_drop 1 i all
          rw [hdrop] at h2
          simpa using h2.symm
        have hnext : Rows.Next (mkRows all i j cols)
            = Rows.Next (mkRows all (i + 1) 0 cols) := by
          simp [mkRows, Rows.Next, hdrop, hdrop2, nextLoopAux, hj]
        have hM2 : (remOuts rest 0).length + rest.length ≤ M := by
          rw [hdec] at hM
          simp only [List.length_cons] at hM
          omega
        have hok2 : ∀ rec2 ∈ rest, ∀ m, m < rec2.numRows →
            exOk (extractRow rec2 m) = true :=
          fun rec2 hr2 m hm => hok rec2 (by simp [hr2]) m hm
        have hrec := ih rest all (i + 1) 0 cols k hM2 hdrop2 hok2
        calc (collectOuts (mkRows all i j cols) ((remOuts (rec :: rest) j).length + k)).1
            = (collectOuts (mkRows all (i + 1) 0 cols) ((remOuts (rec :: rest) j).length + k)).1 :=
              collect_congr _ _ hnext _
          _ = remOuts (rec :: rest) j ++ List.replicate k NextOut.eof := by
              rw [hdec]; exact hrec

/-! Tag lemmas: on a successful decode, the response tag is determined
by the first byte alone. -/

theorem readResponse_tag_255 (rest : List Nat) (t : String) (d rem : List Nat)
    (h : readResponse (255 :: rest) = Except.ok (t, d, rem)) : t = "arrow-stream" := by
  simp only [readResponse, if_true] at h
  cases hf : readFull 3 rest with
  | error e => simp only [hf] at h; cases h
  | ok pr =>
    obtain ⟨marker, rem2⟩ := pr
    simp only [hf] at h
    by_cases hm : marker.getD 0 0 ≠ 255 ∨ marker.getD 1 0 ≠ 255 ∨ marker.getD 2 0 ≠ 255
    · rw [if_pos hm] at h; cases h
    · rw [if_neg hm] at h
      injection h with hpair
      injection hpair with ht hrest
      exact ht.symm

theorem readResponse_tag_36 (rest : List Nat) (t : String) (d rem : List Nat)
    (h : readResponse (36 :: rest) = Except.ok (t, d, rem)) : t = "null" ∨ t = "bulk" := by
  simp only [readResponse, if_true] at h
  cases hl : readLine rest with
  | error e => simp only [hl] at h; cases h
  | ok pr =>
    obtain ⟨line, rem2⟩ := pr
    simp only [hl] at h
    cases ha : atoi (trimSpace line) with
    | none => simp only [ha] at h; cases h
    | some len =>
      simp only [ha] at h
      by_cases h1 : len = -1
      · rw [if_pos h1] at h
        injection h with hpair
        injection hpair with ht hrest
        exact Or.inl ht.symm
      · rw [if_neg h1] at h
        by_cases h2 : len < 0
        · rw [if_pos h2] at h; cases h
        · rw [if_neg h2] at h
          cases hf : readFull len.toNat rem2 with
          | error e => simp only [hf] at h; cases h
          | ok pr2 =>
            obtain ⟨data, rem3⟩ := pr2
            simp only [hf] at h
            injection h with hpair
            injection hpair with ht hrest
            exact Or.inr ht.symm

theorem readResponse_tag_43 (rest : List Nat) (t : String) (d rem : List Nat)
    (h : readResponse (43 :: rest) = Except.ok (t, d, rem)) : t = "ok" := by
  simp only [readResponse, if_true] at h
  cases hl : readLine rest with
  | error e => simp only [hl] at h; cases h
  | ok pr =>
    obtain ⟨line, rem2⟩ := pr
    simp only [hl] at h
    injection h with hpair
    injection hpair with ht hrest
    exact ht.symm

theorem readResponse_tag_45 (rest : List Nat) (t : String) (d rem : List Nat)
    (h : readResponse (45 :: rest) = Except.ok (t, d, rem)) : t = "error" := by
  simp only [readResponse, if_true] at h
  cases hl : readLine rest with
  | error e => simp only [hl] at h; cases h
  | ok pr =>
    obtain ⟨line, rem2⟩ := pr
    simp only [hl] at h
    injection h with hpair
    injection hpair with ht hrest
    exact ht.symm

theorem readResponse_tag_58 (rest : List Nat) (t : String) (d rem : List Nat)
    (h : readResponse (58 :: rest) = Except.ok (t, d, rem)) : t = "int" := by
  simp only [readResponse, if_true] at h
  cases hl : readLine rest with
  | error e => simp only [hl] at h; cases h
  | ok pr =>
    obtain ⟨line, rem2⟩ := pr
    simp only [hl] at h
    injection h with hpair
    injection hpair with ht hrest
    exact ht.symm

/-! Claim theorems. -/

/-- C1: readResponse inspects exactly the first byte: a first byte
outside the recognized set always yields a protocol error, and on any
successful decode the tag is the variant determined by the first byte
(43 ok, 45 error, 58 int, 36 null or bulk, 255 arrow-stream). -/
theorem readResponse_first_byte_dispatch :
    (∀ b rest, b ≠ 43 → b ≠ 45 → b ≠ 58 → b ≠ 36 → b ≠ 255 →
      readResponse (b :: rest) = Except.error (RespError.protocol
        ("unknown response type: " ++ String.singleton (Char.ofNat b))))
    ∧ (∀ input t d rem, readResponse input = Except.ok (t, d, rem) →
      ∃ b rest, input = b :: rest ∧
        ((b = 43 ∧ t = "ok") ∨ (b = 45 ∧ t = "error") ∨ (b = 58 ∧ t = "int")
          ∨ (b = 36 ∧ (t = "null" ∨ t = "bulk")) ∨ (b = 255 ∧ t = "arrow-stream"))) := by
  constructor
  · intro b rest h43 h45 h58 h36 h255
    simp [readResponse, h43, h45, h58, h36, h255]
  · intro input t d rem h
    cases input with
    | nil => cases h
    | cons b rest =>
      refine ⟨b, rest, rfl, ?_⟩
      by_cases h255 : b = 255
      · subst h255
        exact Or.inr (Or.inr (Or.inr (Or.inr ⟨rfl, readResponse_tag_255 rest t d rem h⟩)))
      by_cases h36 : b = 36
      · subst h36
        exact Or.inr (Or.inr (Or.inr (Or.inl ⟨rfl, readResponse_tag_36 rest t d rem h⟩)))
      by_cases h43 : b = 43
      · subst h43
        exact Or.inl ⟨rfl, readResponse_tag_43 rest t d rem h⟩
      by_cases h45 : b = 45
      · subst h45
        exact Or.inr (Or.inl ⟨rfl, readResponse_tag_45 rest t d rem h⟩)
      by_cases h58 : b = 58
      · subst h58
        exact Or.inr (Or.inr (Or.inl ⟨rfl, readResponse_tag_58 rest t d rem h⟩))
      · exfalso
        simp [readResponse, h255, h36, h43, h45, h58] at h

/-- C1 witness: byte 65 is outside the recognized set and decodes to a
protocol error. -/
theorem readResponse_first_byte_dispatch_witness :
    readResponse [65] = Except.error (RespError.protocol
      ("unknown response type: " ++ String.singleton (Char.ofNat 65))) :=
  readResponse_first_byte_dispatch.1 65 [] (by decide) (by decide) (by decide)
    (by decide) (by decide)

/-- C2: from a fresh cursor over decoded records whose rows all extract
successfully, Next succeeds exactly totalRows times, producing the rows
in record order then row order with none duplicated or skipped, and
every later call returns end-of-data. -/
theorem rows_next_visits_all_rows (records : List ArrowRecord) (k : Nat)
    (hok : ∀ rec ∈ records, ∀ m, m < rec.numRows → exOk (extractRow rec m) = true) :
    (collectOuts (newRowsFromArrow records) (totalRows records + k)).1
      = allOuts records ++ List.replicate k NextOut.eof
    ∧ (allOuts records).length = totalRows records
    ∧ (∀ o ∈ allOuts records, ∃ vs, o = NextOut.row vs) := by
  refine ⟨?_, allOuts_length records, allOuts_rows records hok⟩
  have hfresh : newRowsFromArrow records
      = mkRows records 0 0 (newRowsFromArrow records).columns := rfl
  have hspec := collect_spec ((remOuts records 0).length + records.length) records records 0 0
    (newRowsFromArrow records).columns k (le_refl _) rfl hok
  rw [remOuts_zero] at hspec
  rw [hfresh, ← allOuts_length records]
  exact hspec

/-- C2 witness: the two-record fixture with three rows, followed by two
extra calls that both report end-of-data. -/
theorem rows_next_visits_all_rows_witness :
    (collectOuts (newRowsFromArrow sampleRecords) (totalRows sampleRecords + 2)).1
      = allOuts sampleRecords ++ List.replicate 2 NextOut.eof :=
  (rows_next_visits_all_rows sampleRecords 2 (by decide)).1

/-- C3 counterexample: Close on an already closed Conn returns an error,
not the no-error result the claim states. -/
theorem conn_close_closed_counterexample :
    Conn.Close { closed := true, tx := false }
      = (some "luna: connection already closed", { closed := true, tx := false })
    ∧ some "luna: connection already closed" ≠ (none : Option String) :=
  ⟨rfl, by decide⟩

/-- C3 amended: Close on an already closed Conn returns the error about
the connection being already closed and leaves the state unchanged. -/
theorem conn_close_already_closed (c : Conn) (h : c.closed = true) :
    Conn.Close c = (some "luna: connection already closed", c) := by
  simp [Conn.Close, h]

/-- C3 witness. -/
theorem conn_close_already_closed_witness :
    Conn.Close { closed := true, tx := true }
      = (some "luna: connection already closed", { closed := true, tx := true }) :=
  conn_close_already_closed { closed := true, tx := true } rfl

/-- C4: every successful ExecContext reports zero rows affected, and
when the response frame is the batch stream the whole stream is decoded
and discarded before returning: the stream position afterwards is the
one the Arrow decoder reached after consuming the re-prepended stream. -/
theorem exec_drains_stream_and_zero_rows :
    (∀ (decode : ArrowDecoder) (c : Conn) (stream query : List Nat) (res : result)
        (rem : List Nat),
      Conn.ExecContext decode c stream query = Except.ok (res, rem) →
      res.rowsAffected = 0 ∧ resultRowsAffected res = (0, none))
    ∧ (∀ (decode : ArrowDecoder) (c : Conn) (stream query d rem : List Nat)
        (recs : List ArrowRecord) (rem2 : List Nat),
      c.closed = false →
      readResponse stream = Except.ok ("arrow-stream", d, rem) →
      decode (255 :: 255 :: 255 :: 255 :: rem) = Except.ok (recs, rem2) →
      Conn.ExecContext decode c stream query = Except.ok ({ rowsAffected := 0 }, rem2)) := by
  constructor
  · intro decode c stream query res rem h
    unfold Conn.ExecContext at h
    by_cases hc : c.closed
    · rw [if_pos hc] at h; cases h
    · rw [if_neg hc] at h
      cases hr : readResponse stream with
      | error e => simp only [hr] at h; cases h
      | ok trip =>
        obtain ⟨tag, data, rem0⟩ := trip
        simp only [hr] at h
        by_cases ht : tag = "error"
        · rw [if_pos ht] at h; cases h
        · rw [if_neg ht] at h
          by_cases ha : tag = "arrow-stream"
          · rw [if_pos ha] at h
            cases hp : parseArrowIPCFromReader decode rem0 with
            | error e => simp only [hp] at h; cases h
            | ok pr =>
              obtain ⟨recs, rem2⟩ := pr
              simp only [hp] at h
              injection h with hpair
              injection hpair with hres hrem
              exact ⟨by rw [← hres], by rw [← hres]; rfl⟩
          · rw [if_neg ha] at h
            injection h with hpair
            injection hpair with hres hrem
            exact ⟨by rw [← hres], by rw [← hres]; rfl⟩
  · intro decode c stream query d rem recs rem2 hc hr hdec
    unfold Conn.ExecContext
    rw [if_neg (by simp [hc])]
    simp only [hr]
    simp [parseArrowIPCFromReader, hdec]

/-- C4 witness: a marker-only stream with the sample decoder. -/
theorem exec_drains_stream_witness :
    Conn.ExecContext sampleDecode { closed := false, tx := false } [255, 255, 255, 255] []
      = Except.ok ({ rowsAffected := 0 }, []) :=
  exec_drains_stream_and_zero_rows.2 sampleDecode { closed := false, tx := false }
    [255, 255, 255, 255] [] [255, 255, 255, 255] [] [] [] rfl rfl rfl

/-- C5: a 255 first byte reads exactly 3 more bytes; when they are all
255 the decoder returns the arrow-stream tag with the stream positioned
after the marker, and the streaming decoder is handed the 4 consumed
bytes again so it sees the byte-exact original stream; any differing
byte among the 3 is a protocol error; a stream too short for the 3
bytes is an io error. -/
theorem readResponse_marker_transition :
    (∀ tl : List Nat,
      readResponse (255 :: 255 :: 255 :: 255 :: tl)
          = Except.ok ("arrow-stream", [255, 255, 255, 255], tl)
      ∧ ∀ decode : ArrowDecoder,
          parseArrowIPCFromReader decode tl = decode (255 :: 255 :: 255 :: 255 :: tl))
    ∧ (∀ a b c tl : _, (a ≠ 255 ∨ b ≠ 255 ∨ c ≠ 255) →
      readResponse (255 :: a :: b :: c :: tl)
        = Except.error (RespError.protocol "invalid continuation marker"))
    ∧ (∀ rest : List Nat, rest.length < 3 →
      readResponse (255 :: rest) = Except.error RespError.ioEOF) := by
  refine ⟨?_, ?_, ?_⟩
  · intro tl
    exact ⟨rfl, fun decode => rfl⟩
  · intro a b c tl hmis
    have hf : readFull 3 (a :: b :: c :: tl) = Except.ok ([a, b, c], tl) := rfl
    rcases hmis with h | h | h <;> simp [readResponse, hf, h]
  · intro rest hlen
    rcases rest with _ | ⟨a, _ | ⟨b, _ | ⟨c, tl⟩⟩⟩
    · rfl
    · rfl
    · rfl
    · exfalso
      simp only [List.length_cons] at hlen
      omega

/-- C5 witness: concrete streams for all three branches. -/
theorem readResponse_marker_transition_witness :
    readResponse [255, 255, 255, 255, 1, 2]
      = Except.ok ("arrow-stream", [255, 255, 255, 255], [1, 2])
    ∧ readResponse [255, 255, 0, 255]
      = Except.error (RespError.protocol "invalid continuation marker")
    ∧ readResponse [255, 255] = Except.error RespError.ioEOF :=
  ⟨(readResponse_marker_transition.1 [1, 2]).1,
    readResponse_marker_transition.2.1 255 0 255 [] (Or.inr (Or.inl (by decide))),
    readResponse_marker_transition.2.2 [255] (by decide)⟩

/-- C6: for both command kinds, the encoded frame is exactly the dollar
byte, the decimal length of the marker-plus-sql payload (excluding the
trailing CRLF), CRLF, the payload, CRLF; the markers are the bytes of
the q-colon and x-colon strings. -/
theorem sendCommand_frame (sql : List Nat) :
    sendCommand cmdQuery sql
      = 36 :: (natDigits (2 + sql.length) ++ [13, 10] ++ (cmdQuery ++ sql) ++ [13, 10])
    ∧ sendCommand cmdExecute sql
      = 36 :: (natDigits (2 + sql.length) ++ [13, 10] ++ (cmdExecute ++ sql) ++ [13, 10])
    ∧ cmdQuery = strBytes "q:" ∧ cmdExecute = strBytes "x:" := by
  have hq : (cmdQuery ++ sql).length = 2 + sql.length := by
    simp [cmdQuery]
    omega
  have hx : (cmdExecute ++ sql).length = 2 + sql.length := by
    simp [cmdExecute]
    omega
  refine ⟨?_, ?_, rfl, rfl⟩
  · simp only [sendCommand]
    rw [hq]
    simp [List.cons_append, List.append_assoc]
  · simp only [sendCommand]
    rw [hx]
    simp [List.cons_append, List.append_assoc]

/-- C7 counterexample: a null cell in a column of unsupported type is
extracted successfully as nil, contradicting the claim that extraction
always fails for an unsupported declared type. -/
theorem unsupported_null_cell_counterexample :
    getValueFromColumn (ArrowArray.unsupported "arrow.struct" [true]) 0
      = Except.ok Value.nil := rfl

/-- C7 amended: a null cell of any declared type (supported or not)
surfaces as the nil marker; a non-null cell of an unsupported type is a
decode error; a non-null cell never surfaces as nil, so nil is never
confused with a zero value of the declared type. -/
theorem null_cells_nil_and_unsupported_error (col : ArrowArray) (i : Nat) :
    (col.isNull i = true → getValueFromColumn col i = Except.ok Value.nil)
    ∧ (∀ tn nulls, col = ArrowArray.unsupported tn nulls → col.isNull i = false →
        getValueFromColumn col i = Except.error ("unsupported Arrow type: " ++ tn))
    ∧ (col.isNull i = false → ∀ v, getValueFromColumn col i = Except.ok v →
        v ≠ Value.nil) := by
  refine ⟨?_, ?_, ?_⟩
  · intro h
    simp [getValueFromColumn, h]
  · intro tn nulls hcol hnull
    subst hcol
    simp [getValueFromColumn, hnull]
  · intro hnull v hv
    cases col <;> simp [getValueFromColumn, hnull] at hv <;> subst hv <;> simp

/-- C7 witness: a marked-null int64 cell extracts as nil. -/
theorem null_cells_nil_witness :
    getValueFromColumn (ArrowArray.int64 [true] [5]) 0 = Except.ok Value.nil :=
  (null_cells_nil_and_unsupported_error (ArrowArray.int64 [true] [5]) 0).1 rfl

/-- C8 counterexample: the colon decoder neither parses the payload as a
signed decimal (a non-numeric line decodes successfully and its bytes
have no signed-decimal reading) nor trims only trailing whitespace (a
leading space is trimmed as well). -/
theorem readResponse_int_counterexample :
    readResponse [58, 97, 98, 99, 10] = Except.ok ("int", [97, 98, 99], [])
    ∧ atoi [97, 98, 99] = none
    ∧ readResponse [58, 32, 52, 50, 10] = Except.ok ("int", [52, 50], []) :=
  ⟨rfl, rfl, rfl⟩

/-- C8 amended: a colon first byte reads the rest of the line, trims
whitespace from both ends, and returns the int-tagged variant carrying
the trimmed bytes unparsed. -/
theorem readResponse_int_payload (rest line rem : List Nat)
    (h : readLine rest = Except.ok (line, rem)) :
    readResponse (58 :: rest) = Except.ok ("int", trimSpace line, rem) := by
  simp [readResponse, h]

/-- C8 witness: the line with digit bytes 52 50 and CRLF. -/
theorem readResponse_int_payload_witness :
    readResponse [58, 52, 50, 13, 10] = Except.ok ("int", [52, 50], []) :=
  readResponse_int_payload [52, 50, 13, 10] [52, 50, 13, 10] [] rfl

/-- C9 counterexample: Commit on a transaction handle whose conn has no
transaction flagged open panics instead of returning an error, and so
does Rollback on a handle with a nil conn. -/
theorem tx_commit_panics_counterexample :
    tx.Commit sampleDecode { c := some { closed := false, tx := false } } []
      = GoCall.panicked commitPanicMsg
    ∧ tx.Rollback sampleDecode { c := none } [] = GoCall.panicked rollbackPanicMsg :=
  ⟨rfl, rfl⟩

/-- C9 amended: BeginTx while the transaction flag is set returns an
error value; Commit and Rollback with a nil conn or with no transaction
flagged open abort with a panic rather than returning an error. -/
theorem tx_misuse_semantics :
    (∀ (decode : ArrowDecoder) (c : Conn) (stream : List Nat), c.tx = true →
      Conn.BeginTx decode c stream = GoCall.err "luna: there is already an open transaction")
    ∧ (∀ (decode : ArrowDecoder) (stream : List Nat),
      tx.Commit decode { c := none } stream = GoCall.panicked commitPanicMsg
      ∧ tx.Rollback decode { c := none } stream = GoCall.panicked rollbackPanicMsg)
    ∧ (∀ (decode : ArrowDecoder) (c : Conn) (stream : List Nat), c.tx = false →
      tx.Commit decode { c := some c } stream = GoCall.panicked commitPanicMsg
      ∧ tx.Rollback decode { c := some c } stream = GoCall.panicked rollbackPanicMsg) := by
  refine ⟨?_, ?_, ?_⟩
  · intro decode c stream h
    simp [Conn.BeginTx, h]
  · intro decode stream
    exact ⟨rfl, rfl⟩
  · intro decode c stream h
    exact ⟨by simp [tx.Commit, h], by simp [tx.Rollback, h]⟩

/-- C9 witness: BeginTx with the flag already set errors. -/
theorem tx_misuse_semantics_witness :
    Conn.BeginTx sampleDecode { closed := false, tx := true } []
      = GoCall.err "luna: there is already an open transaction" :=
  tx_misuse_semantics.1 sampleDecode { closed := false, tx := true } [] rfl

/-- C10: the first Close of an open cursor returns no error and releases
exactly the retained records; the state it leaves is a fixed point of
Close that releases nothing and returns no error, so every later call is
a no-op, at whatever cursor position the rows were closed. -/
theorem rows_close_idempotent (r : Rows) (h : r.closed = false) :
    (r.Close).1 = none
    ∧ (r.Close).2.1 = r.records
    ∧ ((r.Close).2.2).Close = (none, [], (r.Close).2.2) := by
  simp [Rows.Close, h]

/-- C10 witness: closing a fresh cursor over the fixture twice. -/
theorem rows_close_idempotent_witness :
    ((newRowsFromArrow sampleRecords).Close).1 = none
    ∧ ((newRowsFromArrow sampleRecords).Close).2.1 = (newRowsFromArrow sampleRecords).records
    ∧ (((newRowsFromArrow sampleRecords).Close).2.2).Close
        = (none, [], ((newRowsFromArrow sampleRecords).Close).2.2) :=
  rows_close_idempotent (newRowsFromArrow sampleRecords) rfl

end Luna
